import Mathlib

set_option maxHeartbeats 1000000

/-!
Shallow embedding of `keras_transformer/transformer.py`.

The Python file builds a Keras computation graph: every layer call creates a
named graph node whose inputs are previously created nodes.  We embed the
graph as an inductive type `Node` of layer-call trees (a node stores the
layer's configuration and the argument node(s) it was applied to).  A Keras
layer can be applied either to a single tensor or to a Python list of
tensors; `LayerInput` mirrors that union.  Weight matrices are abstracted to
opaque identifiers (`Nat`), dropout rates to rationals (the code only ever
compares a rate against `0.0`).
-/

mutual

inductive Node : Type where
  | input : String → Node
  | embedding : String → Nat → Nat → Option (List Nat) → Bool → Node → Node
  | trigPosEmbedding : String → String → Node → Node
  | multiHeadAttention : String → Nat → String → Bool → LayerInput → Node
  | feedForward : String → Nat → String → LayerInput → Node
  | layerNormalization : String → Node → Node
  | dropout : String → ℚ → Node → Node
  | add : String → List Node → Node
  | dense : String → Nat → String → Node → Node

inductive LayerInput : Type where
  | single : Node → LayerInput
  | list : List Node → LayerInput

end

/-- `input_layer[0]` after the `isinstance(input_layer, list)` test in
`_wrap_layer`: a plain tensor is its own residual source, a list contributes
its first element.  (The dummy default models Python's `IndexError` on an
empty list; the code never builds an empty list.) -/
def LayerInput.first : LayerInput → Node
  | .single n => n
  | .list ns => ns.headD (Node.input "IndexError")

/-- `_wrap_layer(name, input_layer, build_func, dropout_rate)`: residual,
normalization and dropout around a sub-layer. -/
def _wrap_layer (name : String) (input_layer : LayerInput)
    (build_func : LayerInput → Node) (dropout_rate : ℚ) : Node :=
  let build_output := build_func input_layer
  let normal_layer := Node.layerNormalization (name ++ "-Norm") build_output
  let dropout_layer :=
    if 0 < dropout_rate then
      Node.dropout (name ++ "-Dropout") dropout_rate normal_layer
    else
      normal_layer
  Node.add (name ++ "-Add") [input_layer.first, dropout_layer]

/-- `_attention_builder(name, head_num, activation, history_only)`. -/
def _attention_builder (name : String) (head_num : Nat) (activation : String)
    (history_only : Bool) : LayerInput → Node :=
  fun x => Node.multiHeadAttention name head_num activation history_only x

/-- `_feed_forward_builder(name, hidden_dim, activation)`. -/
def _feed_forward_builder (name : String) (hidden_dim : Nat)
    (activation : String) : LayerInput → Node :=
  fun x => Node.feedForward name hidden_dim activation x

/-- `_get_encoder_component(name, input_layer, head_num, hidden_dim,
activation, dropout_rate)`. -/
def _get_encoder_component (name : String) (input_layer : Node)
    (head_num hidden_dim : Nat) (activation : String) (dropout_rate : ℚ) :
    Node :=
  let attention_name := name ++ "-MultiHeadSelfAttention"
  let feed_forward_name := name ++ "-FeedForward"
  let attention_layer := _wrap_layer attention_name (.single input_layer)
    (_attention_builder attention_name head_num activation false) dropout_rate
  let feed_forward_layer := _wrap_layer feed_forward_name
    (.single attention_layer)
    (_feed_forward_builder feed_forward_name hidden_dim activation)
    dropout_rate
  feed_forward_layer

/-- `_get_decoder_component(name, input_layer, encoded_layer, head_num,
hidden_dim, activation, dropout_rate)`. -/
def _get_decoder_component (name : String) (input_layer encoded_layer : Node)
    (head_num hidden_dim : Nat) (activation : String) (dropout_rate : ℚ) :
    Node :=
  let self_attention_name := name ++ "-MultiHeadSelfAttention"
  let query_attention_name := name ++ "-MultiHeadQueryAttention"
  let feed_forward_name := name ++ "-FeedForward"
  let self_attention_layer := _wrap_layer self_attention_name
    (.single input_layer)
    (_attention_builder self_attention_name head_num activation true)
    dropout_rate
  let query_attention_layer := _wrap_layer query_attention_name
    (.list [self_attention_layer, encoded_layer, encoded_layer])
    (_attention_builder query_attention_name head_num activation false)
    dropout_rate
  let feed_forward_layer := _wrap_layer feed_forward_name
    (.single query_attention_layer)
    (_feed_forward_builder feed_forward_name hidden_dim activation)
    dropout_rate
  feed_forward_layer

/-- One decimal digit.  The interesting arguments are `0 ≤ n ≤ 9`. -/
def digitChar : Nat → Char
  | 0 => '0' | 1 => '1' | 2 => '2' | 3 => '3' | 4 => '4'
  | 5 => '5' | 6 => '6' | 7 => '7' | 8 => '8' | _ => '9'

/-- Decimal digits of `n` (empty for `0`); the fuel argument only drives
structural recursion and is large enough whenever `fuel ≥ n`. -/
def decRepAux : Nat → Nat → List Char
  | 0, _ => []
  | _ + 1, 0 => []
  | fuel + 1, n => decRepAux fuel (n / 10) ++ [digitChar (n % 10)]

/-- Decimal rendering of a natural number, modelling Python's `'%d' % n`. -/
def decRep (n : Nat) : String :=
  if n = 0 then "0" else ⟨decRepAux n n⟩

example : decRep 0 = "0" := rfl
example : decRep 7 = "7" := rfl
example : decRep 12 = "12" := rfl
example : decRep 305 = "305" := rfl

/-- `get_encoders(encoder_num, input_layer, head_num, hidden_dim, activation,
dropout_rate)`: the Python `for i in range(encoder_num)` loop threading
`last_layer`. -/
def get_encoders (encoder_num : Nat) (input_layer : Node)
    (head_num hidden_dim : Nat) (activation : String) (dropout_rate : ℚ) :
    Node :=
  (List.range encoder_num).foldl
    (fun last_layer i =>
      _get_encoder_component ("Encoder-" ++ decRep (i + 1)) last_layer
        head_num hidden_dim activation dropout_rate)
    input_layer

/-- `get_decoders(decoder_num, input_layer, encoded_layer, head_num,
hidden_dim, activation, dropout_rate)`. -/
def get_decoders (decoder_num : Nat) (input_layer encoded_layer : Node)
    (head_num hidden_dim : Nat) (activation : String) (dropout_rate : ℚ) :
    Node :=
  (List.range decoder_num).foldl
    (fun last_layer i =>
      _get_decoder_component ("Decoder-" ++ decRep (i + 1)) last_layer
        encoded_layer head_num hidden_dim activation dropout_rate)
    input_layer

/-- The `embed_weights` argument of `get_model`: Python distinguishes a bare
weight matrix from a list of matrices with `isinstance(embed_weights, list)`.
Matrices are abstracted to identifiers. -/
inductive EmbedWeightsArg : Type where
  | bare : Nat → EmbedWeightsArg
  | list : List Nat → EmbedWeightsArg

/-- `keras.models.Model(inputs=[...], outputs=...)`. -/
structure KModel : Type where
  inputs : List Node
  outputs : Node

/-- `get_model(...)`: the full graph assembly. -/
def get_model (token_num embed_dim encoder_num decoder_num head_num
    hidden_dim : Nat) (activation : String) (dropout_rate : ℚ)
    (embed_weights : Option EmbedWeightsArg) (embed_trainable : Option Bool) :
    KModel :=
  let weights : Option (List Nat) :=
    match embed_weights with
    | none => none
    | some (.bare w) => some [w]
    | some (.list ws) => some ws
  let trainable : Bool :=
    match embed_trainable with
    | some b => b
    | none => weights.isNone
  let embed_layer : Node → Node := fun x =>
    Node.embedding "Token-Embedding" token_num embed_dim weights trainable x
  let encoder_input := Node.input "Encoder-Input"
  let encoder_embed :=
    Node.trigPosEmbedding "Encoder-Embedding" "add" (embed_layer encoder_input)
  let encoded_layer := get_encoders encoder_num encoder_embed head_num
    hidden_dim activation dropout_rate
  let decoder_input := Node.input "Decoder-Input"
  let decoder_embed :=
    Node.trigPosEmbedding "Decoder-Embedding" "add" (embed_layer decoder_input)
  let decoded_layer := get_decoders decoder_num decoder_embed encoded_layer
    head_num hidden_dim activation dropout_rate
  let dense_layer := Node.dense "Output" token_num "softmax" decoded_layer
  { inputs := [encoder_input, decoder_input], outputs := dense_layer }

/-! ## Graph observers

The claims below are stated through observation functions that traverse the
constructed graph and report the layer calls it contains, so that each claim
is a fact read off the graph rather than a restatement of the builder. -/

mutual

/-- Every layer-call node occurring in a tree, the root included. -/
def Node.nodesIn : Node → List Node
  | .input nm => [.input nm]
  | .embedding nm i o w t x => .embedding nm i o w t x :: x.nodesIn
  | .trigPosEmbedding nm m x => .trigPosEmbedding nm m x :: x.nodesIn
  | .multiHeadAttention nm h a ho il =>
      .multiHeadAttention nm h a ho il :: il.nodesInLI
  | .feedForward nm u a il => .feedForward nm u a il :: il.nodesInLI
  | .layerNormalization nm x => .layerNormalization nm x :: x.nodesIn
  | .dropout nm r x => .dropout nm r x :: x.nodesIn
  | .add nm xs => .add nm xs :: nodesInList xs
  | .dense nm u a x => .dense nm u a x :: x.nodesIn

/-- Nodes occurring in a layer input. -/
def LayerInput.nodesInLI : LayerInput → List Node
  | .single x => x.nodesIn
  | .list xs => nodesInList xs

/-- Nodes occurring in any member of a list. -/
def nodesInList : List Node → List Node
  | [] => []
  | x :: xs => x.nodesIn ++ nodesInList xs

end

/-- One multi-head-attention layer call: its name, its `history_only` flag
and the input(s) it was applied to. -/
structure AttCall : Type where
  name : String
  historyOnly : Bool
  inputs : LayerInput

def Node.attCallOf : Node → Option AttCall
  | .multiHeadAttention nm _ _ ho il => some ⟨nm, ho, il⟩
  | _ => none

/-- All attention calls in a graph. -/
def attCalls (n : Node) : List AttCall := n.nodesIn.filterMap Node.attCallOf

/-- One embedding layer call: its configuration and the node it was applied
to. -/
structure EmbedCall : Type where
  name : String
  inputDim : Nat
  outputDim : Nat
  weights : Option (List Nat)
  trainable : Bool
  arg : Node

def Node.embedCallOf : Node → Option EmbedCall
  | .embedding nm i o w t x => some ⟨nm, i, o, w, t, x⟩
  | _ => none

/-- All embedding calls in a graph. -/
def embedCalls (n : Node) : List EmbedCall :=
  n.nodesIn.filterMap Node.embedCallOf

/-- One positional-encoding layer call: its name, mode and argument. -/
structure PosCall : Type where
  name : String
  mode : String
  arg : Node

def Node.posCallOf : Node → Option PosCall
  | .trigPosEmbedding nm m x => some ⟨nm, m, x⟩
  | _ => none

/-- All positional-encoding calls in a graph. -/
def posCalls (n : Node) : List PosCall := n.nodesIn.filterMap Node.posCallOf

/-- The operation kind of a node, as a display string. -/
def Node.kindName : Node → String
  | .input _ => "Input"
  | .embedding _ _ _ _ _ _ => "Embedding"
  | .trigPosEmbedding _ _ _ => "TrigPosEmbedding"
  | .multiHeadAttention _ _ _ _ _ => "MultiHeadAttention"
  | .feedForward _ _ _ _ => "FeedForward"
  | .layerNormalization _ _ => "LayerNormalization"
  | .dropout _ _ _ => "Dropout"
  | .add _ _ => "Add"
  | .dense _ _ _ _ => "Dense"

/-- The name of a node. -/
def Node.layerName : Node → String
  | .input nm => nm
  | .embedding nm _ _ _ _ _ => nm
  | .trigPosEmbedding nm _ _ => nm
  | .multiHeadAttention nm _ _ _ _ => nm
  | .feedForward nm _ _ _ => nm
  | .layerNormalization nm _ => nm
  | .dropout nm _ _ => nm
  | .add nm _ => nm
  | .dense nm _ _ _ => nm

/-- All `(kind, name)` pairs of layer calls in a graph. -/
def namedKinds (n : Node) : List (String × String) :=
  n.nodesIn.map (fun x => (x.kindName, x.layerName))

/-! ## Reference stack builders written from the spec's words

Used only to compare `get_encoders` / `get_decoders` against the spec's
description of the stack builder (claim about sequential threading, 1-based
naming and returning the last block's output). -/

/-- Follows the spec's words: thread the rolling output through `depth`
invocations of the encoder block, naming the `i`-th instance
`"Encoder-<1-based-index>"`; depth `0` returns the input. -/
def encodersFromSpec : Nat → Node → Nat → Nat → String → ℚ → Node
  | 0, input_layer, _, _, _, _ => input_layer
  | n + 1, input_layer, head_num, hidden_dim, activation, dropout_rate =>
      _get_encoder_component ("Encoder-" ++ decRep (n + 1))
        (encodersFromSpec n input_layer head_num hidden_dim activation
          dropout_rate)
        head_num hidden_dim activation dropout_rate

/-- Follows the spec's words: the decoder-stack analogue of
`encodersFromSpec`, every block consuming the same encoder output. -/
def decodersFromSpec : Nat → Node → Node → Nat → Nat → String → ℚ → Node
  | 0, input_layer, _, _, _, _, _ => input_layer
  | n + 1, input_layer, encoded_layer, head_num, hidden_dim, activation,
      dropout_rate =>
      _get_decoder_component ("Decoder-" ++ decRep (n + 1))
        (decodersFromSpec n input_layer encoded_layer head_num hidden_dim
          activation dropout_rate)
        encoded_layer head_num hidden_dim activation dropout_rate

/-! ## Basic traversal lemmas -/

theorem first_single (x : Node) : (LayerInput.single x).first = x := rfl

theorem first_list_cons (x : Node) (xs : List Node) :
    (LayerInput.list (x :: xs)).first = x := rfl

/-- Attention calls contributed by a layer input. -/
def attCallsLI (il : LayerInput) : List AttCall :=
  il.nodesInLI.filterMap Node.attCallOf

/-- Attention calls contributed by a list of nodes. -/
def attCallsList (xs : List Node) : List AttCall :=
  (nodesInList xs).filterMap Node.attCallOf

theorem attCallsList_nil : attCallsList [] = [] := by
  simp [attCallsList, nodesInList]

theorem attCallsList_cons (x : Node) (xs : List Node) :
    attCallsList (x :: xs) = attCalls x ++ attCallsList xs := by
  simp [attCallsList, attCalls, nodesInList]

theorem attCallsLI_single (x : Node) :
    attCallsLI (.single x) = attCalls x := by
  simp [attCallsLI, attCalls, LayerInput.nodesInLI]

theorem attCallsLI_list (xs : List Node) :
    attCallsLI (.list xs) = attCallsList xs := by
  simp [attCallsLI, attCallsList, LayerInput.nodesInLI]

theorem attCalls_input (nm : String) : attCalls (.input nm) = [] := by
  simp [attCalls, Node.nodesIn, Node.attCallOf]

theorem attCalls_embedding (nm : String) (i o : Nat) (w : Option (List Nat))
    (t : Bool) (x : Node) :
    attCalls (.embedding nm i o w t x) = attCalls x := by
  simp [attCalls, Node.nodesIn, Node.attCallOf]

theorem attCalls_trigPosEmbedding (nm m : String) (x : Node) :
    attCalls (.trigPosEmbedding nm m x) = attCalls x := by
  simp [attCalls, Node.nodesIn, Node.attCallOf]

theorem attCalls_multiHeadAttention (nm : String) (h : Nat) (a : String)
    (ho : Bool) (il : LayerInput) :
    attCalls (.multiHeadAttention nm h a ho il) = ⟨nm, ho, il⟩ :: attCallsLI il := by
  simp [attCalls, attCallsLI, Node.nodesIn, Node.attCallOf]

theorem attCalls_feedForward (nm : String) (u : Nat) (a : String)
    (il : LayerInput) :
    attCalls (.feedForward nm u a il) = attCallsLI il := by
  simp [attCalls, attCallsLI, Node.nodesIn, Node.attCallOf]

theorem attCalls_layerNormalization (nm : String) (x : Node) :
    attCalls (.layerNormalization nm x) = attCalls x := by
  simp [attCalls, Node.nodesIn, Node.attCallOf]

theorem attCalls_dropout (nm : String) (r : ℚ) (x : Node) :
    attCalls (.dropout nm r x) = attCalls x := by
  simp [attCalls, Node.nodesIn, Node.attCallOf]

theorem attCalls_add (nm : String) (xs : List Node) :
    attCalls (.add nm xs) = attCallsList xs := by
  simp [attCalls, attCallsList, Node.nodesIn, Node.attCallOf]

theorem attCalls_dense (nm : String) (u : Nat) (a : String) (x : Node) :
    attCalls (.dense nm u a x) = attCalls x := by
  simp [attCalls, Node.nodesIn, Node.attCallOf]

theorem attCalls_wrap (nm : String) (il : LayerInput)
    (bf : LayerInput → Node) (r : ℚ) :
    attCalls (_wrap_layer nm il bf r) = attCalls il.first ++ attCalls (bf il) := by
  unfold _wrap_layer
  by_cases h : 0 < r <;>
    simp [h, attCalls_add, attCallsList_cons, attCallsList_nil,
      attCalls_dropout, attCalls_layerNormalization]

/-- The masked self-attention stage of a decoder block (the
`self_attention_layer` binding of `_get_decoder_component`). -/
def decoderSelfStage (name : String) (input_layer : Node) (head_num : Nat)
    (activation : String) (dropout_rate : ℚ) : Node :=
  _wrap_layer (name ++ "-MultiHeadSelfAttention") (.single input_layer)
    (_attention_builder (name ++ "-MultiHeadSelfAttention") head_num
      activation true)
    dropout_rate

theorem attCalls_encoder_component (nm : String) (inp : Node)
    (h hd : Nat) (act : String) (r : ℚ) :
    attCalls (_get_encoder_component nm inp h hd act r) =
      (attCalls inp ++
        (⟨nm ++ "-MultiHeadSelfAttention", false, .single inp⟩ :: attCalls inp)) ++
      (attCalls inp ++
        (⟨nm ++ "-MultiHeadSelfAttention", false, .single inp⟩ :: attCalls inp)) := by
  unfold _get_encoder_component _attention_builder _feed_forward_builder
  simp [attCalls_wrap, attCalls_multiHeadAttention, attCalls_feedForward,
    attCallsLI_single, first_single]

theorem mem_attCalls_encoder_component {c : AttCall} (nm : String)
    (inp : Node) (h hd : Nat) (act : String) (r : ℚ) :
    c ∈ attCalls (_get_encoder_component nm inp h hd act r) ↔
      c ∈ attCalls inp ∨
        c = ⟨nm ++ "-MultiHeadSelfAttention", false, .single inp⟩ := by
  simp only [attCalls_encoder_component, List.mem_append, List.mem_cons]
  tauto

theorem attCalls_decoder_component (nm : String) (inp enc : Node)
    (h hd : Nat) (act : String) (r : ℚ) :
    attCalls (_get_decoder_component nm inp enc h hd act r) =
      let s := decoderSelfStage nm inp h act r
      let sCalls := attCalls inp ++
        (⟨nm ++ "-MultiHeadSelfAttention", true, .single inp⟩ :: attCalls inp)
      let qCalls := sCalls ++
        (⟨nm ++ "-MultiHeadQueryAttention", false, .list [s, enc, enc]⟩ ::
          (sCalls ++ (attCalls enc ++ attCalls enc)))
      qCalls ++ qCalls := by
  unfold _get_decoder_component decoderSelfStage _attention_builder
    _feed_forward_builder
  simp [attCalls_wrap, attCalls_multiHeadAttention, attCalls_feedForward,
    attCallsLI_single, attCallsLI_list, attCallsList_cons, attCallsList_nil,
    first_single, first_list_cons]

theorem mem_attCalls_decoder_component {c : AttCall} (nm : String)
    (inp enc : Node) (h hd : Nat) (act : String) (r : ℚ) :
    c ∈ attCalls (_get_decoder_component nm inp enc h hd act r) ↔
      c ∈ attCalls inp ∨ c ∈ attCalls enc ∨
        c = ⟨nm ++ "-MultiHeadSelfAttention", true, .single inp⟩ ∨
        c = ⟨nm ++ "-MultiHeadQueryAttention", false,
          .list [decoderSelfStage nm inp h act r, enc, enc]⟩ := by
  simp only [attCalls_decoder_component, List.mem_append, List.mem_cons]
  tauto

/-! ## Stack lemmas -/

theorem get_encoders_zero_eq (inp : Node) (h hd : Nat) (act : String)
    (r : ℚ) : get_encoders 0 inp h hd act r = inp := rfl

theorem get_decoders_zero_eq (inp enc : Node) (h hd : Nat) (act : String)
    (r : ℚ) : get_decoders 0 inp enc h hd act r = inp := rfl

theorem get_encoders_succ (n : Nat) (inp : Node) (h hd : Nat) (act : String)
    (r : ℚ) :
    get_encoders (n + 1) inp h hd act r =
      _get_encoder_component ("Encoder-" ++ decRep (n + 1))
        (get_encoders n inp h hd act r) h hd act r := by
  simp [get_encoders, List.range_succ]

theorem get_decoders_succ (n : Nat) (inp enc : Node) (h hd : Nat)
    (act : String) (r : ℚ) :
    get_decoders (n + 1) inp enc h hd act r =
      _get_decoder_component ("Decoder-" ++ decRep (n + 1))
        (get_decoders n inp enc h hd act r) enc h hd act r := by
  simp [get_decoders, List.range_succ]

theorem mem_attCalls_encoders {c : AttCall} (n : Nat) (inp : Node)
    (h hd : Nat) (act : String) (r : ℚ) :
    c ∈ attCalls (get_encoders n inp h hd act r) ↔
      c ∈ attCalls inp ∨ ∃ k, k < n ∧
        c = ⟨"Encoder-" ++ decRep (k + 1) ++ "-MultiHeadSelfAttention", false,
          .single (get_encoders k inp h hd act r)⟩ := by
  induction n with
  | zero => simp [get_encoders_zero_eq]
  | succ n ih =>
      rw [get_encoders_succ, mem_attCalls_encoder_component, ih]
      constructor
      · rintro ((hc | ⟨k, hk, rfl⟩) | rfl)
        · exact Or.inl hc
        · exact Or.inr ⟨k, Nat.lt_succ_of_lt hk, rfl⟩
        · exact Or.inr ⟨n, Nat.lt_succ_self n, rfl⟩
      · rintro (hc | ⟨k, hk, rfl⟩)
        · exact Or.inl (Or.inl hc)
        · rcases Nat.lt_succ_iff_lt_or_eq.mp hk with hk1 | rfl
          · exact Or.inl (Or.inr ⟨k, hk1, rfl⟩)
          · exact Or.inr rfl

theorem mem_attCalls_decoders {c : AttCall} (n : Nat) (inp enc : Node)
    (h hd : Nat) (act : String) (r : ℚ) :
    c ∈ attCalls (get_decoders n inp enc h hd act r) ↔
      c ∈ attCalls inp ∨ (0 < n ∧ c ∈ attCalls enc) ∨ (∃ k, k < n ∧
        c = ⟨"Decoder-" ++ decRep (k + 1) ++ "-MultiHeadSelfAttention", true,
          .single (get_decoders k inp enc h hd act r)⟩) ∨ ∃ k, k < n ∧
        c = ⟨"Decoder-" ++ decRep (k + 1) ++ "-MultiHeadQueryAttention", false,
          .list [decoderSelfStage ("Decoder-" ++ decRep (k + 1))
            (get_decoders k inp enc h hd act r) h act r, enc, enc]⟩ := by
  induction n with
  | zero => simp [get_decoders_zero_eq]
  | succ n ih =>
      rw [get_decoders_succ, mem_attCalls_decoder_component, ih]
      constructor
      · rintro ((hc | ⟨_, hc⟩ | ⟨k, hk, rfl⟩ | ⟨k, hk, rfl⟩) | hc | rfl | rfl)
        · exact Or.inl hc
        · exact Or.inr (Or.inl ⟨Nat.succ_pos n, hc⟩)
        · exact Or.inr (Or.inr (Or.inl ⟨k, Nat.lt_succ_of_lt hk, rfl⟩))
        · exact Or.inr (Or.inr (Or.inr ⟨k, Nat.lt_succ_of_lt hk, rfl⟩))
        · exact Or.inr (Or.inl ⟨Nat.succ_pos n, hc⟩)
        · exact Or.inr (Or.inr (Or.inl ⟨n, Nat.lt_succ_self n, rfl⟩))
        · exact Or.inr (Or.inr (Or.inr ⟨n, Nat.lt_succ_self n, rfl⟩))
      · rintro (hc | ⟨_, hc⟩ | ⟨k, hk, rfl⟩ | ⟨k, hk, rfl⟩)
        · exact Or.inl (Or.inl hc)
        · exact Or.inr (Or.inl hc)
        · rcases Nat.lt_succ_iff_lt_or_eq.mp hk with hk1 | rfl
          · exact Or.inl (Or.inr (Or.inr (Or.inl ⟨k, hk1, rfl⟩)))
          · exact Or.inr (Or.inr (Or.inl rfl))
        · rcases Nat.lt_succ_iff_lt_or_eq.mp hk with hk1 | rfl
          · exact Or.inl (Or.inr (Or.inr (Or.inr ⟨k, hk1, rfl⟩)))
          · exact Or.inr (Or.inr (Or.inr rfl))

/-! ## Name disambiguation facts -/

theorem digitChar_ne_Q (m : Nat) : digitChar m ≠ 'Q' := by
  rcases m with _ | _ | _ | _ | _ | _ | _ | _ | _ | m <;> simp [digitChar]

theorem Q_not_mem_decRepAux : ∀ (f n : Nat), 'Q' ∉ decRepAux f n := by
  intro f
  induction f with
  | zero => intro n; simp [decRepAux]
  | succ f ih =>
      intro n
      cases n with
      | zero => simp [decRepAux]
      | succ k =>
          intro hmem
          rw [show decRepAux (f + 1) (k + 1) =
              decRepAux f ((k + 1) / 10) ++ [digitChar ((k + 1) % 10)] from by
            simp [decRepAux]] at hmem
          rcases List.mem_append.mp hmem with h1 | h2
          · exact ih _ h1
          · rw [List.mem_singleton] at h2
            exact digitChar_ne_Q _ h2.symm

theorem Q_not_mem_decRep (n : Nat) : 'Q' ∉ (decRep n).data := by
  unfold decRep
  split
  · decide
  · exact Q_not_mem_decRepAux n n

theorem queryAttentionName_ne_selfAttentionName (i j : Nat) :
    "Decoder-" ++ decRep i ++ "-MultiHeadQueryAttention" ≠
      "Decoder-" ++ decRep j ++ "-MultiHeadSelfAttention" := by
  intro hEq
  have hd := congrArg String.data hEq
  simp only [String.data_append] at hd
  have hQ : 'Q' ∈ "Decoder-".data ++ (decRep i).data ++
      "-MultiHeadQueryAttention".data :=
    List.mem_append_right _ (by decide)
  rw [hd] at hQ
  rcases List.mem_append.mp hQ with h1 | h2
  · rcases List.mem_append.mp h1 with h0 | h1
    · revert h0; decide
    · exact Q_not_mem_decRep j h1
  · revert h2; decide

theorem encoderName_ne_decoderName (x y : String) :
    "Encoder-" ++ x ≠ "Decoder-" ++ y := by
  intro hEq
  have h1 : ("Encoder-" ++ x).data.head? = some 'E' := by
    rw [String.data_append]; rfl
  have h2 : ("Decoder-" ++ y).data.head? = some 'D' := by
    rw [String.data_append]; rfl
  rw [hEq, h2] at h1
  simp at h1

/-! ## get_model unfolding -/

/-- The embedding-weight normalization performed at the top of `get_model`
(`if embed_weights is not None: if not isinstance(embed_weights, list):
embed_weights = [embed_weights]`). -/
def weightsOf : Option EmbedWeightsArg → Option (List Nat)
  | none => none
  | some (.bare w) => some [w]
  | some (.list ws) => some ws

/-- The trainability default inference of `get_model`
(`if embed_trainable is None: embed_trainable = embed_weights is None`). -/
def trainableOf (embed_weights : Option EmbedWeightsArg)
    (embed_trainable : Option Bool) : Bool :=
  match embed_trainable with
  | some b => b
  | none => (weightsOf embed_weights).isNone

/-- The embedded, positionally-encoded encoder stream of `get_model`. -/
def encoderStream (token_num embed_dim : Nat)
    (embed_weights : Option EmbedWeightsArg) (embed_trainable : Option Bool) :
    Node :=
  Node.trigPosEmbedding "Encoder-Embedding" "add"
    (Node.embedding "Token-Embedding" token_num embed_dim
      (weightsOf embed_weights) (trainableOf embed_weights embed_trainable)
      (Node.input "Encoder-Input"))

/-- The embedded, positionally-encoded decoder stream of `get_model`. -/
def decoderStream (token_num embed_dim : Nat)
    (embed_weights : Option EmbedWeightsArg) (embed_trainable : Option Bool) :
    Node :=
  Node.trigPosEmbedding "Decoder-Embedding" "add"
    (Node.embedding "Token-Embedding" token_num embed_dim
      (weightsOf embed_weights) (trainableOf embed_weights embed_trainable)
      (Node.input "Decoder-Input"))

theorem get_model_inputs (t e en dn h hd : Nat) (act : String) (r : ℚ)
    (w : Option EmbedWeightsArg) (tr : Option Bool) :
    (get_model t e en dn h hd act r w tr).inputs =
      [Node.input "Encoder-Input", Node.input "Decoder-Input"] := rfl

theorem get_model_outputs (t e en dn h hd : Nat) (act : String) (r : ℚ)
    (w : Option EmbedWeightsArg) (tr : Option Bool) :
    (get_model t e en dn h hd act r w tr).outputs =
      Node.dense "Output" t "softmax"
        (get_decoders dn (decoderStream t e w tr)
          (get_encoders en (encoderStream t e w tr) h hd act r)
          h hd act r) := by
  rcases w with _ | w | ws <;> rcases tr with _ | b <;> rfl

/-! ## Embedding-call traversal lemmas -/

/-- Embedding calls contributed by a layer input. -/
def embedCallsLI (il : LayerInput) : List EmbedCall :=
  il.nodesInLI.filterMap Node.embedCallOf

/-- Embedding calls contributed by a list of nodes. -/
def embedCallsList (xs : List Node) : List EmbedCall :=
  (nodesInList xs).filterMap Node.embedCallOf

theorem embedCallsList_nil : embedCallsList [] = [] := by
  simp [embedCallsList, nodesInList]

theorem embedCallsList_cons (x : Node) (xs : List Node) :
    embedCallsList (x :: xs) = embedCalls x ++ embedCallsList xs := by
  simp [embedCallsList, embedCalls, nodesInList]

theorem embedCallsLI_single (x : Node) :
    embedCallsLI (.single x) = embedCalls x := by
  simp [embedCallsLI, embedCalls, LayerInput.nodesInLI]

theorem embedCallsLI_list (xs : List Node) :
    embedCallsLI (.list xs) = embedCallsList xs := by
  simp [embedCallsLI, embedCallsList, LayerInput.nodesInLI]

theorem embedCalls_input (nm : String) : embedCalls (.input nm) = [] := by
  simp [embedCalls, Node.nodesIn, Node.embedCallOf]

theorem embedCalls_embedding (nm : String) (i o : Nat)
    (w : Option (List Nat)) (t : Bool) (x : Node) :
    embedCalls (.embedding nm i o w t x) = ⟨nm, i, o, w, t, x⟩ :: embedCalls x := by
  simp [embedCalls, Node.nodesIn, Node.embedCallOf]

theorem embedCalls_trigPosEmbedding (nm m : String) (x : Node) :
    embedCalls (.trigPosEmbedding nm m x) = embedCalls x := by
  simp [embedCalls, Node.nodesIn, Node.embedCallOf]

theorem embedCalls_multiHeadAttention (nm : String) (h : Nat) (a : String)
    (ho : Bool) (il : LayerInput) :
    embedCalls (.multiHeadAttention nm h a ho il) = embedCallsLI il := by
  simp [embedCalls, embedCallsLI, Node.nodesIn, Node.embedCallOf]

theorem embedCalls_feedForward (nm : String) (u : Nat) (a : String)
    (il : LayerInput) :
    embedCalls (.feedForward nm u a il) = embedCallsLI il := by
  simp [embedCalls, embedCallsLI, Node.nodesIn, Node.embedCallOf]

theorem embedCalls_layerNormalization (nm : String) (x : Node) :
    embedCalls (.layerNormalization nm x) = embedCalls x := by
  simp [embedCalls, Node.nodesIn, Node.embedCallOf]

theorem embedCalls_dropout (nm : String) (r : ℚ) (x : Node) :
    embedCalls (.dropout nm r x) = embedCalls x := by
  simp [embedCalls, Node.nodesIn, Node.embedCallOf]

theorem embedCalls_add (nm : String) (xs : List Node) :
    embedCalls (.add nm xs) = embedCallsList xs := by
  simp [embedCalls, embedCallsList, Node.nodesIn, Node.embedCallOf]

theorem embedCalls_dense (nm : String) (u : Nat) (a : String) (x : Node) :
    embedCalls (.dense nm u a x) = embedCalls x := by
  simp [embedCalls, Node.nodesIn, Node.embedCallOf]

theorem embedCalls_wrap (nm : String) (il : LayerInput)
    (bf : LayerInput → Node) (r : ℚ) :
    embedCalls (_wrap_layer nm il bf r) =
      embedCalls il.first ++ embedCalls (bf il) := by
  unfold _wrap_layer
  by_cases h : 0 < r <;>
    simp [h, embedCalls_add, embedCallsList_cons, embedCallsList_nil,
      embedCalls_dropout, embedCalls_layerNormalization]

theorem mem_embedCalls_encoder_component {c : EmbedCall} (nm : String)
    (inp : Node) (h hd : Nat) (act : String) (r : ℚ) :
    c ∈ embedCalls (_get_encoder_component nm inp h hd act r) ↔
      c ∈ embedCalls inp := by
  unfold _get_encoder_component _attention_builder _feed_forward_builder
  simp [embedCalls_wrap, embedCalls_multiHeadAttention, embedCalls_feedForward,
    embedCallsLI_single, first_single]

theorem mem_embedCalls_decoder_component {c : EmbedCall} (nm : String)
    (inp enc : Node) (h hd : Nat) (act : String) (r : ℚ) :
    c ∈ embedCalls (_get_decoder_component nm inp enc h hd act r) ↔
      c ∈ embedCalls inp ∨ c ∈ embedCalls enc := by
  unfold _get_decoder_component _attention_builder _feed_forward_builder
  simp only [embedCalls_wrap, embedCalls_multiHeadAttention,
    embedCalls_feedForward, embedCallsLI_single, embedCallsLI_list,
    embedCallsList_cons, embedCallsList_nil, first_single, first_list_cons,
    List.mem_append, List.append_nil]
  tauto

theorem mem_embedCalls_encoders {c : EmbedCall} (n : Nat) (inp : Node)
    (h hd : Nat) (act : String) (r : ℚ) :
    c ∈ embedCalls (get_encoders n inp h hd act r) ↔ c ∈ embedCalls inp := by
  induction n with
  | zero => rw [get_encoders_zero_eq]
  | succ n ih => rw [get_encoders_succ, mem_embedCalls_encoder_component, ih]

theorem mem_embedCalls_decoders {c : EmbedCall} (n : Nat) (inp enc : Node)
    (h hd : Nat) (act : String) (r : ℚ) :
    c ∈ embedCalls (get_decoders n inp enc h hd act r) ↔
      c ∈ embedCalls inp ∨ (0 < n ∧ c ∈ embedCalls enc) := by
  induction n with
  | zero => rw [get_decoders_zero_eq]; simp
  | succ n ih =>
      rw [get_decoders_succ, mem_embedCalls_decoder_component, ih]
      constructor
      · rintro ((hc | ⟨_, hc⟩) | hc)
        · exact Or.inl hc
        · exact Or.inr ⟨Nat.succ_pos n, hc⟩
        · exact Or.inr ⟨Nat.succ_pos n, hc⟩
      · rintro (hc | ⟨_, hc⟩)
        · exact Or.inl (Or.inl hc)
        · exact Or.inr hc

/-! ## Positional-encoding-call traversal lemmas -/

/-- Positional-encoding calls contributed by a layer input. -/
def posCallsLI (il : LayerInput) : List PosCall :=
  il.nodesInLI.filterMap Node.posCallOf

/-- Positional-encoding calls contributed by a list of nodes. -/
def posCallsList (xs : List Node) : List PosCall :=
  (nodesInList xs).filterMap Node.posCallOf

theorem posCallsList_nil : posCallsList [] = [] := by
  simp [posCallsList, nodesInList]

theorem posCallsList_cons (x : Node) (xs : List Node) :
    posCallsList (x :: xs) = posCalls x ++ posCallsList xs := by
  simp [posCallsList, posCalls, nodesInList]

theorem posCallsLI_single (x : Node) : posCallsLI (.single x) = posCalls x := by
  simp [posCallsLI, posCalls, LayerInput.nodesInLI]

theorem posCallsLI_list (xs : List Node) :
    posCallsLI (.list xs) = posCallsList xs := by
  simp [posCallsLI, posCallsList, LayerInput.nodesInLI]

theorem posCalls_input (nm : String) : posCalls (.input nm) = [] := by
  simp [posCalls, Node.nodesIn, Node.posCallOf]

theorem posCalls_embedding (nm : String) (i o : Nat) (w : Option (List Nat))
    (t : Bool) (x : Node) :
    posCalls (.embedding nm i o w t x) = posCalls x := by
  simp [posCalls, Node.nodesIn, Node.posCallOf]

theorem posCalls_trigPosEmbedding (nm m : String) (x : Node) :
    posCalls (.trigPosEmbedding nm m x) = ⟨nm, m, x⟩ :: posCalls x := by
  simp [posCalls, Node.nodesIn, Node.posCallOf]

theorem posCalls_multiHeadAttention (nm : String) (h : Nat) (a : String)
    (ho : Bool) (il : LayerInput) :
    posCalls (.multiHeadAttention nm h a ho il) = posCallsLI il := by
  simp [posCalls, posCallsLI, Node.nodesIn, Node.posCallOf]

theorem posCalls_feedForward (nm : String) (u : Nat) (a : String)
    (il : LayerInput) :
    posCalls (.feedForward nm u a il) = posCallsLI il := by
  simp [posCalls, posCallsLI, Node.nodesIn, Node.posCallOf]

theorem posCalls_layerNormalization (nm : String) (x : Node) :
    posCalls (.layerNormalization nm x) = posCalls x := by
  simp [posCalls, Node.nodesIn, Node.posCallOf]

theorem posCalls_dropout (nm : String) (r : ℚ) (x : Node) :
    posCalls (.dropout nm r x) = posCalls x := by
  simp [posCalls, Node.nodesIn, Node.posCallOf]

theorem posCalls_add (nm : String) (xs : List Node) :
    posCalls (.add nm xs) = posCallsList xs := by
  simp [posCalls, posCallsList, Node.nodesIn, Node.posCallOf]

theorem posCalls_dense (nm : String) (u : Nat) (a : String) (x : Node) :
    posCalls (.dense nm u a x) = posCalls x := by
  simp [posCalls, Node.nodesIn, Node.posCallOf]

theorem posCalls_wrap (nm : String) (il : LayerInput)
    (bf : LayerInput → Node) (r : ℚ) :
    posCalls (_wrap_layer nm il bf r) =
      posCalls il.first ++ posCalls (bf il) := by
  unfold _wrap_layer
  by_cases h : 0 < r <;>
    simp [h, posCalls_add, posCallsList_cons, posCallsList_nil,
      posCalls_dropout, posCalls_layerNormalization]

theorem mem_posCalls_encoder_component {c : PosCall} (nm : String)
    (inp : Node) (h hd : Nat) (act : String) (r : ℚ) :
    c ∈ posCalls (_get_encoder_component nm inp h hd act r) ↔
      c ∈ posCalls inp := by
  unfold _get_encoder_component _attention_builder _feed_forward_builder
  simp [posCalls_wrap, posCalls_multiHeadAttention, posCalls_feedForward,
    posCallsLI_single, first_single]

theorem mem_posCalls_decoder_component {c : PosCall} (nm : String)
    (inp enc : Node) (h hd : Nat) (act : String) (r : ℚ) :
    c ∈ posCalls (_get_decoder_component nm inp enc h hd act r) ↔
      c ∈ posCalls inp ∨ c ∈ posCalls enc := by
  unfold _get_decoder_component _attention_builder _feed_forward_builder
  simp only [posCalls_wrap, posCalls_multiHeadAttention, posCalls_feedForward,
    posCallsLI_single, posCallsLI_list, posCallsList_cons, posCallsList_nil,
    first_single, first_list_cons, List.mem_append, List.append_nil]
  tauto

theorem mem_posCalls_encoders {c : PosCall} (n : Nat) (inp : Node)
    (h hd : Nat) (act : String) (r : ℚ) :
    c ∈ posCalls (get_encoders n inp h hd act r) ↔ c ∈ posCalls inp := by
  induction n with
  | zero => rw [get_encoders_zero_eq]
  | succ n ih => rw [get_encoders_succ, mem_posCalls_encoder_component, ih]

theorem mem_posCalls_decoders {c : PosCall} (n : Nat) (inp enc : Node)
    (h hd : Nat) (act : String) (r : ℚ) :
    c ∈ posCalls (get_decoders n inp enc h hd act r) ↔
      c ∈ posCalls inp ∨ (0 < n ∧ c ∈ posCalls enc) := by
  induction n with
  | zero => rw [get_decoders_zero_eq]; simp
  | succ n ih =>
      rw [get_decoders_succ, mem_posCalls_decoder_component, ih]
      constructor
      · rintro ((hc | ⟨_, hc⟩) | hc)
        · exact Or.inl hc
        · exact Or.inr ⟨Nat.succ_pos n, hc⟩
        · exact Or.inr ⟨Nat.succ_pos n, hc⟩
      · rintro (hc | ⟨_, hc⟩)
        · exact Or.inl (Or.inl hc)
        · exact Or.inr hc

/-! ## The two embedded streams of get_model, observed -/

theorem attCalls_encoderStream (t e : Nat) (w : Option EmbedWeightsArg)
    (tr : Option Bool) : attCalls (encoderStream t e w tr) = [] := by
  simp [encoderStream, attCalls_trigPosEmbedding, attCalls_embedding,
    attCalls_input]

theorem attCalls_decoderStream (t e : Nat) (w : Option EmbedWeightsArg)
    (tr : Option Bool) : attCalls (decoderStream t e w tr) = [] := by
  simp [decoderStream, attCalls_trigPosEmbedding, attCalls_embedding,
    attCalls_input]

theorem embedCalls_encoderStream (t e : Nat) (w : Option EmbedWeightsArg)
    (tr : Option Bool) :
    embedCalls (encoderStream t e w tr) =
      [⟨"Token-Embedding", t, e, weightsOf w, trainableOf w tr,
        .input "Encoder-Input"⟩] := by
  simp [encoderStream, embedCalls_trigPosEmbedding, embedCalls_embedding,
    embedCalls_input]

theorem embedCalls_decoderStream (t e : Nat) (w : Option EmbedWeightsArg)
    (tr : Option Bool) :
    embedCalls (decoderStream t e w tr) =
      [⟨"Token-Embedding", t, e, weightsOf w, trainableOf w tr,
        .input "Decoder-Input"⟩] := by
  simp [decoderStream, embedCalls_trigPosEmbedding, embedCalls_embedding,
    embedCalls_input]

theorem posCalls_encoderStream (t e : Nat) (w : Option EmbedWeightsArg)
    (tr : Option Bool) :
    posCalls (encoderStream t e w tr) =
      [⟨"Encoder-Embedding", "add",
        Node.embedding "Token-Embedding" t e (weightsOf w)
          (trainableOf w tr) (.input "Encoder-Input")⟩] := by
  simp [encoderStream, posCalls_trigPosEmbedding, posCalls_embedding,
    posCalls_input]

theorem posCalls_decoderStream (t e : Nat) (w : Option EmbedWeightsArg)
    (tr : Option Bool) :
    posCalls (decoderStream t e w tr) =
      [⟨"Decoder-Embedding", "add",
        Node.embedding "Token-Embedding" t e (weightsOf w)
          (trainableOf w tr) (.input "Decoder-Input")⟩] := by
  simp [decoderStream, posCalls_trigPosEmbedding, posCalls_embedding,
    posCalls_input]

theorem mem_embedCalls_model {c : EmbedCall} (t e en dn h hd : Nat)
    (act : String) (r : ℚ) (w : Option EmbedWeightsArg) (tr : Option Bool) :
    c ∈ embedCalls (get_model t e en dn h hd act r w tr).outputs ↔
      c = ⟨"Token-Embedding", t, e, weightsOf w, trainableOf w tr,
            .input "Decoder-Input"⟩ ∨
        (0 < dn ∧ c = ⟨"Token-Embedding", t, e, weightsOf w,
            trainableOf w tr, .input "Encoder-Input"⟩) := by
  rw [get_model_outputs, embedCalls_dense, mem_embedCalls_decoders]
  rw [mem_embedCalls_encoders]
  simp [embedCalls_decoderStream, embedCalls_encoderStream]

theorem mem_posCalls_model {c : PosCall} (t e en dn h hd : Nat)
    (act : String) (r : ℚ) (w : Option EmbedWeightsArg) (tr : Option Bool) :
    c ∈ posCalls (get_model t e en dn h hd act r w tr).outputs ↔
      c = ⟨"Decoder-Embedding", "add",
            Node.embedding "Token-Embedding" t e (weightsOf w)
              (trainableOf w tr) (.input "Decoder-Input")⟩ ∨
        (0 < dn ∧ c = ⟨"Encoder-Embedding", "add",
            Node.embedding "Token-Embedding" t e (weightsOf w)
              (trainableOf w tr) (.input "Encoder-Input")⟩) := by
  rw [get_model_outputs, posCalls_dense, mem_posCalls_decoders]
  rw [mem_posCalls_encoders]
  simp [posCalls_decoderStream, posCalls_encoderStream]

/-! ## (kind, name) traversal lemmas -/

/-- `(kind, name)` pairs contributed by a layer input. -/
def namedKindsLI (il : LayerInput) : List (String × String) :=
  il.nodesInLI.map (fun x => (x.kindName, x.layerName))

/-- `(kind, name)` pairs contributed by a list of nodes. -/
def namedKindsList (xs : List Node) : List (String × String) :=
  (nodesInList xs).map (fun x => (x.kindName, x.layerName))

theorem namedKindsList_nil : namedKindsList [] = [] := by
  simp [namedKindsList, nodesInList]

theorem namedKindsList_cons (x : Node) (xs : List Node) :
    namedKindsList (x :: xs) = namedKinds x ++ namedKindsList xs := by
  simp [namedKindsList, namedKinds, nodesInList]

theorem namedKindsLI_single (x : Node) :
    namedKindsLI (.single x) = namedKinds x := by
  simp [namedKindsLI, namedKinds, LayerInput.nodesInLI]

theorem namedKindsLI_list (xs : List Node) :
    namedKindsLI (.list xs) = namedKindsList xs := by
  simp [namedKindsLI, namedKindsList, LayerInput.nodesInLI]

theorem namedKinds_input (nm : String) :
    namedKinds (.input nm) = [("Input", nm)] := by
  simp [namedKinds, Node.nodesIn, Node.kindName, Node.layerName]

theorem namedKinds_embedding (nm : String) (i o : Nat)
    (w : Option (List Nat)) (t : Bool) (x : Node) :
    namedKinds (.embedding nm i o w t x) = ("Embedding", nm) :: namedKinds x := by
  simp [namedKinds, Node.nodesIn, Node.kindName, Node.layerName]

theorem namedKinds_trigPosEmbedding (nm m : String) (x : Node) :
    namedKinds (.trigPosEmbedding nm m x) =
      ("TrigPosEmbedding", nm) :: namedKinds x := by
  simp [namedKinds, Node.nodesIn, Node.kindName, Node.layerName]

theorem namedKinds_multiHeadAttention (nm : String) (h : Nat) (a : String)
    (ho : Bool) (il : LayerInput) :
    namedKinds (.multiHeadAttention nm h a ho il) =
      ("MultiHeadAttention", nm) :: namedKindsLI il := by
  simp [namedKinds, namedKindsLI, Node.nodesIn, Node.kindName, Node.layerName]

theorem namedKinds_feedForward (nm : String) (u : Nat) (a : String)
    (il : LayerInput) :
    namedKinds (.feedForward nm u a il) =
      ("FeedForward", nm) :: namedKindsLI il := by
  simp [namedKinds, namedKindsLI, Node.nodesIn, Node.kindName, Node.layerName]

theorem namedKinds_layerNormalization (nm : String) (x : Node) :
    namedKinds (.layerNormalization nm x) =
      ("LayerNormalization", nm) :: namedKinds x := by
  simp [namedKinds, Node.nodesIn, Node.kindName, Node.layerName]

theorem namedKinds_dropout (nm : String) (r : ℚ) (x : Node) :
    namedKinds (.dropout nm r x) = ("Dropout", nm) :: namedKinds x := by
  simp [namedKinds, Node.nodesIn, Node.kindName, Node.layerName]

theorem namedKinds_add (nm : String) (xs : List Node) :
    namedKinds (.add nm xs) = ("Add", nm) :: namedKindsList xs := by
  simp [namedKinds, namedKindsList, Node.nodesIn, Node.kindName,
    Node.layerName]

theorem namedKinds_dense (nm : String) (u : Nat) (a : String) (x : Node) :
    namedKinds (.dense nm u a x) = ("Dense", nm) :: namedKinds x := by
  simp [namedKinds, Node.nodesIn, Node.kindName, Node.layerName]

theorem mem_namedKinds_wrap {p : String × String} (nm : String)
    (il : LayerInput) (bf : LayerInput → Node) (r : ℚ) :
    p ∈ namedKinds (_wrap_layer nm il bf r) ↔
      p = ("Add", nm ++ "-Add") ∨ p ∈ namedKinds il.first ∨
        (0 < r ∧ p = ("Dropout", nm ++ "-Dropout")) ∨
        p = ("LayerNormalization", nm ++ "-Norm") ∨
        p ∈ namedKinds (bf il) := by
  unfold _wrap_layer
  by_cases h : 0 < r <;>
    simp [h, namedKinds_add, namedKindsList_cons, namedKindsList_nil,
      namedKinds_dropout, namedKinds_layerNormalization, or_assoc]

/-- The `(kind, name)` pairs a single encoder block adds around its input. -/
def encoderStagePairs (nm : String) : List (String × String) :=
  [("MultiHeadAttention", nm ++ "-MultiHeadSelfAttention"),
   ("LayerNormalization", nm ++ "-MultiHeadSelfAttention-Norm"),
   ("Dropout", nm ++ "-MultiHeadSelfAttention-Dropout"),
   ("Add", nm ++ "-MultiHeadSelfAttention-Add"),
   ("FeedForward", nm ++ "-FeedForward"),
   ("LayerNormalization", nm ++ "-FeedForward-Norm"),
   ("Dropout", nm ++ "-FeedForward-Dropout"),
   ("Add", nm ++ "-FeedForward-Add")]

/-- The `(kind, name)` pairs a single decoder block adds around its input. -/
def decoderStagePairs (nm : String) : List (String × String) :=
  [("MultiHeadAttention", nm ++ "-MultiHeadSelfAttention"),
   ("LayerNormalization", nm ++ "-MultiHeadSelfAttention-Norm"),
   ("Dropout", nm ++ "-MultiHeadSelfAttention-Dropout"),
   ("Add", nm ++ "-MultiHeadSelfAttention-Add"),
   ("MultiHeadAttention", nm ++ "-MultiHeadQueryAttention"),
   ("LayerNormalization", nm ++ "-MultiHeadQueryAttention-Norm"),
   ("Dropout", nm ++ "-MultiHeadQueryAttention-Dropout"),
   ("Add", nm ++ "-MultiHeadQueryAttention-Add"),
   ("FeedForward", nm ++ "-FeedForward"),
   ("LayerNormalization", nm ++ "-FeedForward-Norm"),
   ("Dropout", nm ++ "-FeedForward-Dropout"),
   ("Add", nm ++ "-FeedForward-Add")]

theorem mem_namedKinds_encoder_component {p : String × String} (nm : String)
    (inp : Node) (h hd : Nat) (act : String) (r : ℚ) :
    p ∈ namedKinds (_get_encoder_component nm inp h hd act r) →
      p ∈ namedKinds inp ∨ p ∈ encoderStagePairs nm := by
  unfold _get_encoder_component _attention_builder _feed_forward_builder
  intro hp
  rcases (mem_namedKinds_wrap _ _ _ _).mp hp with
    rfl | hp1 | ⟨_, rfl⟩ | rfl | hp1
  · right; simp [encoderStagePairs, String.append_assoc]
  · rw [first_single] at hp1
    rcases (mem_namedKinds_wrap _ _ _ _).mp hp1 with
      rfl | hp2 | ⟨_, rfl⟩ | rfl | hp2
    · right; simp [encoderStagePairs, String.append_assoc]
    · rw [first_single] at hp2; exact Or.inl hp2
    · right; simp [encoderStagePairs, String.append_assoc]
    · right; simp [encoderStagePairs, String.append_assoc]
    · rw [namedKinds_multiHeadAttention, namedKindsLI_single] at hp2
      rcases List.mem_cons.mp hp2 with rfl | hp3
      · right; simp [encoderStagePairs]
      · exact Or.inl hp3
  · right; simp [encoderStagePairs, String.append_assoc]
  · right; simp [encoderStagePairs, String.append_assoc]
  · rw [namedKinds_feedForward, namedKindsLI_single] at hp1
    rcases List.mem_cons.mp hp1 with rfl | hp2
    · right; simp [encoderStagePairs]
    · rcases (mem_namedKinds_wrap _ _ _ _).mp hp2 with
        rfl | hp3 | ⟨_, rfl⟩ | rfl | hp3
      · right; simp [encoderStagePairs, String.append_assoc]
      · rw [first_single] at hp3; exact Or.inl hp3
      · right; simp [encoderStagePairs, String.append_assoc]
      · right; simp [encoderStagePairs, String.append_assoc]
      · rw [namedKinds_multiHeadAttention, namedKindsLI_single] at hp3
        rcases List.mem_cons.mp hp3 with rfl | hp4
        · right; simp [encoderStagePairs]
        · exact Or.inl hp4

theorem mem_namedKinds_decoderSelfStage {p : String × String} (nm : String)
    (inp : Node) (h : Nat) (act : String) (r : ℚ) :
    p ∈ namedKinds (decoderSelfStage nm inp h act r) →
      p ∈ namedKinds inp ∨ p ∈ decoderStagePairs nm := by
  unfold decoderSelfStage _attention_builder
  intro hp
  rcases (mem_namedKinds_wrap _ _ _ _).mp hp with
    rfl | hp1 | ⟨_, rfl⟩ | rfl | hp1
  · right; simp [decoderStagePairs, String.append_assoc]
  · rw [first_single] at hp1; exact Or.inl hp1
  · right; simp [decoderStagePairs, String.append_assoc]
  · right; simp [decoderStagePairs, String.append_assoc]
  · rw [namedKinds_multiHeadAttention, namedKindsLI_single] at hp1
    rcases List.mem_cons.mp hp1 with rfl | hp2
    · right; simp [decoderStagePairs]
    · exact Or.inl hp2

theorem mem_namedKinds_decoderQueryStage {p : String × String} (nm : String)
    (inp enc : Node) (h : Nat) (act : String) (r : ℚ) :
    p ∈ namedKinds (_wrap_layer (nm ++ "-MultiHeadQueryAttention")
        (.list [decoderSelfStage nm inp h act r, enc, enc])
        (_attention_builder (nm ++ "-MultiHeadQueryAttention") h act false)
        r) →
      p ∈ namedKinds inp ∨ p ∈ namedKinds enc ∨ p ∈ decoderStagePairs nm := by
  intro hp
  have hself : p ∈ namedKinds (decoderSelfStage nm inp h act r) →
      p ∈ namedKinds inp ∨ p ∈ namedKinds enc ∨ p ∈ decoderStagePairs nm :=
    fun hp1 =>
      (mem_namedKinds_decoderSelfStage nm inp h act r hp1).imp_right Or.inr
  rcases (mem_namedKinds_wrap _ _ _ _).mp hp with
    rfl | hp1 | ⟨_, rfl⟩ | rfl | hp1
  · right; right; simp [decoderStagePairs, String.append_assoc]
  · rw [first_list_cons] at hp1
    rcases hself hp1 with hin | hrest
    · exact Or.inl hin
    · exact Or.inr hrest
  · right; right; simp [decoderStagePairs, String.append_assoc]
  · right; right; simp [decoderStagePairs, String.append_assoc]
  · rw [show _attention_builder (nm ++ "-MultiHeadQueryAttention") h act false
        (.list [decoderSelfStage nm inp h act r, enc, enc]) =
        Node.multiHeadAttention (nm ++ "-MultiHeadQueryAttention") h act false
          (.list [decoderSelfStage nm inp h act r, enc, enc]) from rfl,
      namedKinds_multiHeadAttention, namedKindsLI_list, namedKindsList_cons,
      namedKindsList_cons, namedKindsList_cons, namedKindsList_nil] at hp1
    rcases List.mem_cons.mp hp1 with rfl | hp2
    · right; right; simp [decoderStagePairs]
    · rw [List.append_nil] at hp2
      rcases List.mem_append.mp hp2 with hp3 | hp3
      · rcases hself hp3 with hin | hrest
        · exact Or.inl hin
        · exact Or.inr hrest
      · rcases List.mem_append.mp hp3 with hp4 | hp4
        · exact Or.inr (Or.inl hp4)
        · exact Or.inr (Or.inl hp4)

theorem mem_namedKinds_decoder_component {p : String × String} (nm : String)
    (inp enc : Node) (h hd : Nat) (act : String) (r : ℚ) :
    p ∈ namedKinds (_get_decoder_component nm inp enc h hd act r) →
      p ∈ namedKinds inp ∨ p ∈ namedKinds enc ∨ p ∈ decoderStagePairs nm := by
  intro hp
  have hq : p ∈ namedKinds (_wrap_layer (nm ++ "-MultiHeadQueryAttention")
      (.list [decoderSelfStage nm inp h act r, enc, enc])
      (_attention_builder (nm ++ "-MultiHeadQueryAttention") h act false) r) →
      p ∈ namedKinds inp ∨ p ∈ namedKinds enc ∨ p ∈ decoderStagePairs nm :=
    fun hp1 => mem_namedKinds_decoderQueryStage nm inp enc h act r hp1
  rw [show _get_decoder_component nm inp enc h hd act r =
      _wrap_layer (nm ++ "-FeedForward")
        (.single (_wrap_layer (nm ++ "-MultiHeadQueryAttention")
          (.list [decoderSelfStage nm inp h act r, enc, enc])
          (_attention_builder (nm ++ "-MultiHeadQueryAttention") h act false)
          r))
        (_feed_forward_builder (nm ++ "-FeedForward") hd act) r from rfl] at hp
  rcases (mem_namedKinds_wrap _ _ _ _).mp hp with
    rfl | hp1 | ⟨_, rfl⟩ | rfl | hp1
  · right; right; simp [decoderStagePairs, String.append_assoc]
  · rw [first_single] at hp1; exact hq hp1
  · right; right; simp [decoderStagePairs, String.append_assoc]
  · right; right; simp [decoderStagePairs, String.append_assoc]
  · rw [show _feed_forward_builder (nm ++ "-FeedForward") hd act
        (.single (_wrap_layer (nm ++ "-MultiHeadQueryAttention")
          (.list [decoderSelfStage nm inp h act r, enc, enc])
          (_attention_builder (nm ++ "-MultiHeadQueryAttention") h act false)
          r)) =
        Node.feedForward (nm ++ "-FeedForward") hd act
          (.single (_wrap_layer (nm ++ "-MultiHeadQueryAttention")
            (.list [decoderSelfStage nm inp h act r, enc, enc])
            (_attention_builder (nm ++ "-MultiHeadQueryAttention") h act
              false) r)) from rfl,
      namedKinds_feedForward, namedKindsLI_single] at hp1
    rcases List.mem_cons.mp hp1 with rfl | hp2
    · right; right; simp [decoderStagePairs]
    · exact hq hp2

/-! ## Stack equality with the spec description, and size facts -/

theorem get_encoders_eq_fromSpec (n : Nat) (inp : Node) (h hd : Nat)
    (act : String) (r : ℚ) :
    get_encoders n inp h hd act r = encodersFromSpec n inp h hd act r := by
  induction n with
  | zero => rfl
  | succ n ih => rw [get_encoders_succ, ih]; rfl

theorem get_decoders_eq_fromSpec (n : Nat) (inp enc : Node) (h hd : Nat)
    (act : String) (r : ℚ) :
    get_decoders n inp enc h hd act r =
      decodersFromSpec n inp enc h hd act r := by
  induction n with
  | zero => rfl
  | succ n ih => rw [get_decoders_succ, ih]; rfl

theorem sizeOf_lt_wrap_single (nm : String) (inp : Node)
    (bf : LayerInput → Node) (r : ℚ) :
    sizeOf inp < sizeOf (_wrap_layer nm (.single inp) bf r) := by
  unfold _wrap_layer
  rw [first_single]
  by_cases h : 0 < r <;> simp [h, Node.add.sizeOf_spec] <;> omega

theorem wrap_single_ne_input (nm : String) (inp : Node)
    (bf : LayerInput → Node) (r : ℚ) :
    _wrap_layer nm (.single inp) bf r ≠ inp := by
  intro hEq
  have hlt := sizeOf_lt_wrap_single nm inp bf r
  rw [hEq] at hlt
  exact Nat.lt_irrefl _ hlt

/-! ## Claim theorems -/

/-- C1: in every decoder block built by `_get_decoder_component`, the
cross-attention stage is invoked on the ordered list
`[self-attention stage output, encoder output, encoder output]`: its query
source is the masked self-attention stage's output (which is a new node,
never the block's raw input), and its key and value sources are both the
unmodified encoder output node; moreover the block's only attention calls
beyond those already in its inputs are the masked self-attention call and
this cross-attention call. -/
theorem decoder_cross_attention_wiring (nm : String) (inp enc : Node)
    (h hd : Nat) (act : String) (r : ℚ) :
    (AttCall.mk (nm ++ "-MultiHeadQueryAttention") false
        (.list [decoderSelfStage nm inp h act r, enc, enc]) ∈
      attCalls (_get_decoder_component nm inp enc h hd act r)) ∧
    decoderSelfStage nm inp h act r =
      _wrap_layer (nm ++ "-MultiHeadSelfAttention") (.single inp)
        (_attention_builder (nm ++ "-MultiHeadSelfAttention") h act true) r ∧
    decoderSelfStage nm inp h act r ≠ inp ∧
    ∀ c ∈ attCalls (_get_decoder_component nm inp enc h hd act r),
      c ∉ attCalls inp → c ∉ attCalls enc →
        c = ⟨nm ++ "-MultiHeadSelfAttention", true, .single inp⟩ ∨
        c = ⟨nm ++ "-MultiHeadQueryAttention", false,
          .list [decoderSelfStage nm inp h act r, enc, enc]⟩ := by
  refine ⟨?_, rfl, wrap_single_ne_input _ _ _ _, ?_⟩
  · rw [mem_attCalls_decoder_component]
    exact Or.inr (Or.inr (Or.inr rfl))
  · intro c hc hnotinp hnotenc
    rcases (mem_attCalls_decoder_component nm inp enc h hd act r).mp hc with
      hin | hin | rfl | rfl
    · exact absurd hin hnotinp
    · exact absurd hin hnotenc
    · exact Or.inl rfl
    · exact Or.inr rfl

/-- Witness for C1 at a concrete decoder block. -/
theorem decoder_cross_attention_wiring_witness :
    (AttCall.mk "D-MultiHeadQueryAttention" false
        (.list [decoderSelfStage "D" (.input "x") 2 "relu" 0,
          .input "e", .input "e"]) ∈
      attCalls (_get_decoder_component "D" (.input "x") (.input "e")
        2 4 "relu" 0)) ∧
    (AttCall.mk "D-MultiHeadSelfAttention" true (.single (.input "x")) =
        ⟨"D" ++ "-MultiHeadSelfAttention", true, .single (.input "x")⟩ ∨
      AttCall.mk "D-MultiHeadSelfAttention" true (.single (.input "x")) =
        ⟨"D" ++ "-MultiHeadQueryAttention", false,
          .list [decoderSelfStage "D" (.input "x") 2 "relu" 0,
            .input "e", .input "e"]⟩) := by
  have H := decoder_cross_attention_wiring "D" (.input "x") (.input "e")
    2 4 "relu" 0
  refine ⟨H.1, ?_⟩
  refine H.2.2.2 ⟨"D-MultiHeadSelfAttention", true, .single (.input "x")⟩
    ?_ ?_ ?_
  · rw [mem_attCalls_decoder_component]
    exact Or.inr (Or.inr (Or.inl rfl))
  · rw [attCalls_input]; simp
  · rw [attCalls_input]; simp

/-- C2: `_wrap_layer` returns an Add of exactly two inputs — the original
input (for a list input, exactly its first element, whatever the tail) and
the dropped-out normalized transform output; with `dropout_rate = 0` the
normalized output feeds the Add directly (no Dropout node), and with
`dropout_rate > 0` a Dropout node sits between normalization and the
Add. -/
theorem wrap_layer_residual_structure (nm : String) (bf : LayerInput → Node)
    (r : ℚ) :
    (∀ x : Node, r = 0 →
      _wrap_layer nm (.single x) bf r =
        Node.add (nm ++ "-Add")
          [x, Node.layerNormalization (nm ++ "-Norm") (bf (.single x))]) ∧
    (∀ x : Node, 0 < r →
      _wrap_layer nm (.single x) bf r =
        Node.add (nm ++ "-Add")
          [x, Node.dropout (nm ++ "-Dropout") r
            (Node.layerNormalization (nm ++ "-Norm") (bf (.single x)))]) ∧
    (∀ (x : Node) (xs : List Node), r = 0 →
      _wrap_layer nm (.list (x :: xs)) bf r =
        Node.add (nm ++ "-Add")
          [x, Node.layerNormalization (nm ++ "-Norm")
            (bf (.list (x :: xs)))]) ∧
    (∀ (x : Node) (xs : List Node), 0 < r →
      _wrap_layer nm (.list (x :: xs)) bf r =
        Node.add (nm ++ "-Add")
          [x, Node.dropout (nm ++ "-Dropout") r
            (Node.layerNormalization (nm ++ "-Norm")
              (bf (.list (x :: xs))))]) := by
  refine ⟨?_, ?_, ?_, ?_⟩
  · intro x hr; subst hr
    unfold _wrap_layer
    simp [LayerInput.first]
  · intro x hr
    unfold _wrap_layer
    simp [LayerInput.first, hr]
  · intro x xs hr; subst hr
    unfold _wrap_layer
    simp [LayerInput.first]
  · intro x xs hr
    unfold _wrap_layer
    simp [LayerInput.first, hr]

/-- Witness for C2 at concrete calls, one per dropout regime. -/
theorem wrap_layer_residual_structure_witness :
    _wrap_layer "W" (.single (.input "x"))
        (_feed_forward_builder "F" 3 "relu") 0 =
      Node.add ("W" ++ "-Add")
        [.input "x", Node.layerNormalization ("W" ++ "-Norm")
          (_feed_forward_builder "F" 3 "relu" (.single (.input "x")))] ∧
    _wrap_layer "W" (.list [.input "q", .input "k", .input "v"])
        (_attention_builder "A" 2 "relu" false) 1 =
      Node.add ("W" ++ "-Add")
        [.input "q", Node.dropout ("W" ++ "-Dropout") 1
          (Node.layerNormalization ("W" ++ "-Norm")
            (_attention_builder "A" 2 "relu" false
              (.list [.input "q", .input "k", .input "v"])))] :=
  ⟨(wrap_layer_residual_structure "W" (_feed_forward_builder "F" 3 "relu")
      0).1 (.input "x") rfl,
    (wrap_layer_residual_structure "W" (_attention_builder "A" 2 "relu" false)
      1).2.2.2 (.input "q") [.input "k", .input "v"] (by decide)⟩

theorem trainableOf_some (w : Option EmbedWeightsArg) (b : Bool) :
    trainableOf w (some b) = b := rfl

theorem trainableOf_none_eq (w : Option EmbedWeightsArg) :
    trainableOf w none = w.isNone := by
  rcases w with _ | (wv | ws) <;> rfl

/-- C3: in the assembled model an attention call has `history_only = true`
exactly when it is the first (self-)attention stage of a decoder block
(named `Decoder-k-MultiHeadSelfAttention`), and each decoder block's first
attention stage is present with `history_only = true`; every other
attention stage — encoder self-attention and decoder cross-attention — is
built with `history_only = false`. -/
theorem attention_masking_profile (t e en dn h hd : Nat) (act : String)
    (r : ℚ) (w : Option EmbedWeightsArg) (tr : Option Bool) :
    (∀ c ∈ attCalls (get_model t e en dn h hd act r w tr).outputs,
      (c.historyOnly = true ↔ ∃ k, k < dn ∧
        c.name = "Decoder-" ++ decRep (k + 1) ++ "-MultiHeadSelfAttention")) ∧
    ∀ k, k < dn →
      ∃ c ∈ attCalls (get_model t e en dn h hd act r w tr).outputs,
        c.name = "Decoder-" ++ decRep (k + 1) ++ "-MultiHeadSelfAttention" ∧
        c.historyOnly = true := by
  have houts : attCalls (get_model t e en dn h hd act r w tr).outputs =
      attCalls (get_decoders dn (decoderStream t e w tr)
        (get_encoders en (encoderStream t e w tr) h hd act r) h hd act r) := by
    rw [get_model_outputs, attCalls_dense]
  constructor
  · intro c hc
    rw [houts, mem_attCalls_decoders] at hc
    rcases hc with hc | ⟨_, hc⟩ | ⟨k, hk, rfl⟩ | ⟨k, hk, rfl⟩
    · rw [attCalls_decoderStream] at hc; cases hc
    · rw [mem_attCalls_encoders] at hc
      rcases hc with hc | ⟨j, hj, rfl⟩
      · rw [attCalls_encoderStream] at hc; cases hc
      · constructor
        · intro hfalse; simp at hfalse
        · rintro ⟨k, hk, hname⟩
          simp only [String.append_assoc] at hname
          exact absurd hname (encoderName_ne_decoderName _ _)
    · exact ⟨fun _ => ⟨k, hk, rfl⟩, fun _ => rfl⟩
    · constructor
      · intro hfalse; simp at hfalse
      · rintro ⟨j, hj, hname⟩
        exact absurd hname (queryAttentionName_ne_selfAttentionName _ _)
  · intro k hk
    refine ⟨⟨"Decoder-" ++ decRep (k + 1) ++ "-MultiHeadSelfAttention", true,
      .single (get_decoders k (decoderStream t e w tr)
        (get_encoders en (encoderStream t e w tr) h hd act r) h hd act r)⟩,
      ?_, rfl, rfl⟩
    rw [houts, mem_attCalls_decoders]
    exact Or.inr (Or.inr (Or.inl ⟨k, hk, rfl⟩))

/-- Witness for C3 at a concrete one-encoder, one-decoder model. -/
theorem attention_masking_profile_witness :
    (∃ c ∈ attCalls (get_model 10 4 1 1 2 8 "relu" 0 none none).outputs,
      c.name = "Decoder-" ++ decRep 1 ++ "-MultiHeadSelfAttention" ∧
      c.historyOnly = true) ∧
    ((AttCall.mk ("Decoder-" ++ decRep 1 ++ "-MultiHeadSelfAttention") true
        (.single (decoderStream 10 4 none none))).historyOnly = true ↔
      ∃ k, k < 1 ∧
        (AttCall.mk ("Decoder-" ++ decRep 1 ++ "-MultiHeadSelfAttention") true
          (.single (decoderStream 10 4 none none))).name =
          "Decoder-" ++ decRep (k + 1) ++ "-MultiHeadSelfAttention") := by
  have H := attention_masking_profile 10 4 1 1 2 8 "relu" 0 none none
  refine ⟨H.2 0 (by decide), H.1 _ ?_⟩
  rw [get_model_outputs, attCalls_dense, mem_attCalls_decoders]
  exact Or.inr (Or.inr (Or.inl ⟨0, by decide, rfl⟩))

/-- C4: with `embed_trainable = None` the embedding's trainable flag is
`embed_weights is None` — trainable without pretrained weights, frozen with
them — while an explicit `embed_trainable` is used as given; and the model
does contain an embedding call. -/
theorem embed_trainable_default (t e en dn h hd : Nat) (act : String)
    (r : ℚ) (w : Option EmbedWeightsArg) (tr : Option Bool) :
    (tr = none →
      ∀ c ∈ embedCalls (get_model t e en dn h hd act r w tr).outputs,
        c.trainable = w.isNone) ∧
    (∀ b : Bool, tr = some b →
      ∀ c ∈ embedCalls (get_model t e en dn h hd act r w tr).outputs,
        c.trainable = b) ∧
    embedCalls (get_model t e en dn h hd act r w tr).outputs ≠ [] := by
  refine ⟨?_, ?_, ?_⟩
  · rintro rfl c hc
    rcases (mem_embedCalls_model t e en dn h hd act r w none).mp hc with
      rfl | ⟨_, rfl⟩ <;>
      · show trainableOf w none = w.isNone
        exact trainableOf_none_eq w
  · rintro b rfl c hc
    rcases (mem_embedCalls_model t e en dn h hd act r w (some b)).mp hc with
      rfl | ⟨_, rfl⟩ <;> rfl
  · intro hnil
    have hmem : (⟨"Token-Embedding", t, e, weightsOf w, trainableOf w tr,
        .input "Decoder-Input"⟩ : EmbedCall) ∈
        embedCalls (get_model t e en dn h hd act r w tr).outputs :=
      (mem_embedCalls_model t e en dn h hd act r w tr).mpr (Or.inl rfl)
    rw [hnil] at hmem
    cases hmem

/-- Witness for C4: frozen with pretrained weights, trainable without. -/
theorem embed_trainable_default_witness :
    ((⟨"Token-Embedding", 10, 4, some [7], false,
        .input "Decoder-Input"⟩ : EmbedCall).trainable =
      (some (EmbedWeightsArg.bare 7)).isNone) ∧
    ((⟨"Token-Embedding", 10, 4, none, true,
        .input "Decoder-Input"⟩ : EmbedCall).trainable =
      (none : Option EmbedWeightsArg).isNone) := by
  have H1 := embed_trainable_default 10 4 1 1 2 8 "relu" 0
    (some (.bare 7)) none
  have H2 := embed_trainable_default 10 4 1 1 2 8 "relu" 0 none none
  constructor
  · refine H1.1 rfl _ ?_
    exact (mem_embedCalls_model 10 4 1 1 2 8 "relu" 0
      (some (.bare 7)) none).mpr (Or.inl rfl)
  · refine H2.1 rfl _ ?_
    exact (mem_embedCalls_model 10 4 1 1 2 8 "relu" 0 none none).mpr
      (Or.inl rfl)

/-- C5: `get_encoders` / `get_decoders` coincide with the spec's recursive
description of the stack builder — exactly `N` block applications threading
the rolling output, 1-based `Encoder-i` / `Decoder-i` names, the last
block's output returned — equivalently each stack at depth `n + 1` is one
more named component applied to the depth-`n` stack; and every `(kind,
name)` pair a block adds beyond its inputs is a stage named by appending
the stage kind to the block name. -/
theorem stack_builder_contract :
    (∀ (n : Nat) (inp : Node) (h hd : Nat) (act : String) (r : ℚ),
      get_encoders n inp h hd act r = encodersFromSpec n inp h hd act r) ∧
    (∀ (n : Nat) (inp enc : Node) (h hd : Nat) (act : String) (r : ℚ),
      get_decoders n inp enc h hd act r =
        decodersFromSpec n inp enc h hd act r) ∧
    (∀ (n : Nat) (inp : Node) (h hd : Nat) (act : String) (r : ℚ),
      get_encoders (n + 1) inp h hd act r =
        _get_encoder_component ("Encoder-" ++ decRep (n + 1))
          (get_encoders n inp h hd act r) h hd act r) ∧
    (∀ (n : Nat) (inp enc : Node) (h hd : Nat) (act : String) (r : ℚ),
      get_decoders (n + 1) inp enc h hd act r =
        _get_decoder_component ("Decoder-" ++ decRep (n + 1))
          (get_decoders n inp enc h hd act r) enc h hd act r) ∧
    (∀ (nm : String) (inp : Node) (h hd : Nat) (act : String) (r : ℚ)
        (p : String × String),
      p ∈ namedKinds (_get_encoder_component nm inp h hd act r) →
        p ∈ namedKinds inp ∨ p ∈ encoderStagePairs nm) ∧
    (∀ (nm : String) (inp enc : Node) (h hd : Nat) (act : String) (r : ℚ)
        (p : String × String),
      p ∈ namedKinds (_get_decoder_component nm inp enc h hd act r) →
        p ∈ namedKinds inp ∨ p ∈ namedKinds enc ∨ p ∈ decoderStagePairs nm) :=
  ⟨get_encoders_eq_fromSpec, get_decoders_eq_fromSpec, get_encoders_succ,
    get_decoders_succ,
    fun nm inp h hd act r _ hp =>
      mem_namedKinds_encoder_component nm inp h hd act r hp,
    fun nm inp enc h hd act r _ hp =>
      mem_namedKinds_decoder_component nm inp enc h hd act r hp⟩

/-- Witness for C5 at a depth-2 encoder stack and a concrete block. -/
theorem stack_builder_contract_witness :
    get_encoders 2 (.input "x") 2 8 "relu" 0 =
      encodersFromSpec 2 (.input "x") 2 8 "relu" 0 ∧
    (("Add", "Enc-FeedForward-Add") ∈ namedKinds (.input "x") ∨
      ("Add", "Enc-FeedForward-Add") ∈ encoderStagePairs "Enc") := by
  have H := stack_builder_contract
  refine ⟨H.1 2 (.input "x") 2 8 "relu" 0, ?_⟩
  refine H.2.2.2.2.1 "Enc" (.input "x") 2 8 "relu" 0
    ("Add", "Enc-FeedForward-Add") ?_
  rw [show _get_encoder_component "Enc" (.input "x") 2 8 "relu" 0 =
      _wrap_layer ("Enc" ++ "-FeedForward")
        (.single (_wrap_layer ("Enc" ++ "-MultiHeadSelfAttention")
          (.single (.input "x"))
          (_attention_builder ("Enc" ++ "-MultiHeadSelfAttention") 2 "relu"
            false) 0))
        (_feed_forward_builder ("Enc" ++ "-FeedForward") 8 "relu") 0
      from rfl]
  exact (mem_namedKinds_wrap _ _ _ _).mpr (Or.inl rfl)

/-- C6: `get_model` builds one token-embedding layer (a single name and
configuration) and applies it to both the encoder input and the decoder
input; every embedding call in the model is one of these two, and each
embedded stream gets additive (`"add"`-mode) positional encoding applied to
the embedding output before entering its stack.  (The encoder-side nodes
are reachable from the model output whenever `decoder_num > 0`.) -/
theorem shared_embedding_and_positional (t e en dn h hd : Nat)
    (act : String) (r : ℚ) (w : Option EmbedWeightsArg) (tr : Option Bool) :
    (get_model t e en dn h hd act r w tr).outputs =
      Node.dense "Output" t "softmax"
        (get_decoders dn (decoderStream t e w tr)
          (get_encoders en (encoderStream t e w tr) h hd act r)
          h hd act r) ∧
    (∀ c ∈ embedCalls (get_model t e en dn h hd act r w tr).outputs,
      c = ⟨"Token-Embedding", t, e, weightsOf w, trainableOf w tr,
            .input "Decoder-Input"⟩ ∨
      c = ⟨"Token-Embedding", t, e, weightsOf w, trainableOf w tr,
            .input "Encoder-Input"⟩) ∧
    ((⟨"Token-Embedding", t, e, weightsOf w, trainableOf w tr,
        .input "Decoder-Input"⟩ : EmbedCall) ∈
      embedCalls (get_model t e en dn h hd act r w tr).outputs) ∧
    (0 < dn → (⟨"Token-Embedding", t, e, weightsOf w, trainableOf w tr,
        .input "Encoder-Input"⟩ : EmbedCall) ∈
      embedCalls (get_model t e en dn h hd act r w tr).outputs) ∧
    (∀ p ∈ posCalls (get_model t e en dn h hd act r w tr).outputs,
      p.mode = "add") ∧
    ((⟨"Decoder-Embedding", "add",
        Node.embedding "Token-Embedding" t e (weightsOf w)
          (trainableOf w tr) (.input "Decoder-Input")⟩ : PosCall) ∈
      posCalls (get_model t e en dn h hd act r w tr).outputs) ∧
    (0 < dn → (⟨"Encoder-Embedding", "add",
        Node.embedding "Token-Embedding" t e (weightsOf w)
          (trainableOf w tr) (.input "Encoder-Input")⟩ : PosCall) ∈
      posCalls (get_model t e en dn h hd act r w tr).outputs) := by
  refine ⟨get_model_outputs t e en dn h hd act r w tr, ?_, ?_, ?_, ?_, ?_, ?_⟩
  · intro c hc
    rcases (mem_embedCalls_model t e en dn h hd act r w tr).mp hc with
      rfl | ⟨_, rfl⟩
    · exact Or.inl rfl
    · exact Or.inr rfl
  · exact (mem_embedCalls_model t e en dn h hd act r w tr).mpr (Or.inl rfl)
  · intro hdn
    exact (mem_embedCalls_model t e en dn h hd act r w tr).mpr
      (Or.inr ⟨hdn, rfl⟩)
  · intro p hp
    rcases (mem_posCalls_model t e en dn h hd act r w tr).mp hp with
      rfl | ⟨_, rfl⟩ <;> rfl
  · exact (mem_posCalls_model t e en dn h hd act r w tr).mpr (Or.inl rfl)
  · intro hdn
    exact (mem_posCalls_model t e en dn h hd act r w tr).mpr
      (Or.inr ⟨hdn, rfl⟩)

/-- Witness for C6 at a concrete configuration. -/
theorem shared_embedding_and_positional_witness :
    ((⟨"Token-Embedding", 10, 4, none, true,
        .input "Decoder-Input"⟩ : EmbedCall) =
      ⟨"Token-Embedding", 10, 4, none, true, .input "Decoder-Input"⟩ ∨
     (⟨"Token-Embedding", 10, 4, none, true,
        .input "Decoder-Input"⟩ : EmbedCall) =
      ⟨"Token-Embedding", 10, 4, none, true, .input "Encoder-Input"⟩) ∧
    ((⟨"Token-Embedding", 10, 4, none, true,
        .input "Encoder-Input"⟩ : EmbedCall) ∈
      embedCalls (get_model 10 4 1 1 2 8 "relu" 0 none none).outputs) ∧
    ((⟨"Encoder-Embedding", "add",
        Node.embedding "Token-Embedding" 10 4 none true
          (.input "Encoder-Input")⟩ : PosCall) ∈
      posCalls (get_model 10 4 1 1 2 8 "relu" 0 none none).outputs) := by
  have H := shared_embedding_and_positional 10 4 1 1 2 8 "relu" 0 none none
  exact ⟨H.2.1 _ H.2.2.1, H.2.2.2.1 (by decide), H.2.2.2.2.2.2 (by decide)⟩

/-- C7: the assembled model has exactly the two token-sequence inputs and
one output, the output being a width-`token_num` softmax dense projection
of the decoder stack's output. -/
theorem model_interface (t e en dn h hd : Nat) (act : String) (r : ℚ)
    (w : Option EmbedWeightsArg) (tr : Option Bool) :
    (get_model t e en dn h hd act r w tr).inputs =
      [Node.input "Encoder-Input", Node.input "Decoder-Input"] ∧
    (get_model t e en dn h hd act r w tr).inputs.length = 2 ∧
    (get_model t e en dn h hd act r w tr).outputs =
      Node.dense "Output" t "softmax"
        (get_decoders dn (decoderStream t e w tr)
          (get_encoders en (encoderStream t e w tr) h hd act r)
          h hd act r) :=
  ⟨get_model_inputs t e en dn h hd act r w tr, rfl,
    get_model_outputs t e en dn h hd act r w tr⟩

/-- C8: `get_model` is deterministic — equal configuration arguments yield
the identical graph (hence identical node names, kinds and edges). -/
theorem get_model_deterministic
    (t e en dn h hd : Nat) (act : String) (r : ℚ)
    (w : Option EmbedWeightsArg) (tr : Option Bool)
    (t2 e2 en2 dn2 h2 hd2 : Nat) (act2 : String) (r2 : ℚ)
    (w2 : Option EmbedWeightsArg) (tr2 : Option Bool)
    (ht : t = t2) (he : e = e2) (hen : en = en2) (hdn : dn = dn2)
    (hh : h = h2) (hhd : hd = hd2) (hact : act = act2) (hr : r = r2)
    (hw : w = w2) (htr : tr = tr2) :
    get_model t e en dn h hd act r w tr =
      get_model t2 e2 en2 dn2 h2 hd2 act2 r2 w2 tr2 := by
  subst ht he hen hdn hh hhd hact hr hw htr
  rfl

/-- Witness for C8 at a concrete configuration. -/
theorem get_model_deterministic_witness :
    get_model 3 2 1 1 1 4 "relu" 0 none none =
      get_model 3 2 1 1 1 4 "relu" 0 none none :=
  get_model_deterministic 3 2 1 1 1 4 "relu" 0 none none
    3 2 1 1 1 4 "relu" 0 none none
    rfl rfl rfl rfl rfl rfl rfl rfl rfl rfl

/-- C9: stacking at depth 0 is the identity — `get_encoders` and
`get_decoders` with a zero count return the input layer unchanged. -/
theorem stack_depth_zero_identity (inp enc : Node) (h hd : Nat)
    (act : String) (r : ℚ) :
    get_encoders 0 inp h hd act r = inp ∧
    get_decoders 0 inp enc h hd act r = inp :=
  ⟨rfl, rfl⟩

/-- C10: a bare `embed_weights` matrix is wrapped into a singleton list
before reaching the embedding, a list argument is passed through, and no
weights stay `None`. -/
theorem embed_weights_normalization (t e en dn h hd : Nat) (act : String)
    (r : ℚ) (tr : Option Bool) :
    (∀ wm : Nat, ∀ c ∈ embedCalls
        (get_model t e en dn h hd act r (some (.bare wm)) tr).outputs,
      c.weights = some [wm]) ∧
    (∀ ws : List Nat, ∀ c ∈ embedCalls
        (get_model t e en dn h hd act r (some (.list ws)) tr).outputs,
      c.weights = some ws) ∧
    (∀ c ∈ embedCalls (get_model t e en dn h hd act r none tr).outputs,
      c.weights = none) ∧
    ∀ wm : Nat, embedCalls
      (get_model t e en dn h hd act r (some (.bare wm)) tr).outputs ≠ [] := by
  refine ⟨?_, ?_, ?_, ?_⟩
  · intro wm c hc
    rcases (mem_embedCalls_model t e en dn h hd act r
      (some (.bare wm)) tr).mp hc with rfl | ⟨_, rfl⟩ <;> rfl
  · intro ws c hc
    rcases (mem_embedCalls_model t e en dn h hd act r
      (some (.list ws)) tr).mp hc with rfl | ⟨_, rfl⟩ <;> rfl
  · intro c hc
    rcases (mem_embedCalls_model t e en dn h hd act r none tr).mp hc with
      rfl | ⟨_, rfl⟩ <;> rfl
  · intro wm hnil
    have hmem : (⟨"Token-Embedding", t, e, weightsOf (some (.bare wm)),
        trainableOf (some (.bare wm)) tr, .input "Decoder-Input"⟩ :
          EmbedCall) ∈ embedCalls
        (get_model t e en dn h hd act r (some (.bare wm)) tr).outputs :=
      (mem_embedCalls_model t e en dn h hd act r
        (some (.bare wm)) tr).mpr (Or.inl rfl)
    rw [hnil] at hmem
    cases hmem

/-- Witness for C10: a bare matrix id 7 reaches the embedding as `[7]`. -/
theorem embed_weights_normalization_witness :
    (⟨"Token-Embedding", 10, 4, some [7], false,
      .input "Decoder-Input"⟩ : EmbedCall).weights = some [7] := by
  have H := embed_weights_normalization 10 4 1 1 2 8 "relu" 0 none
  exact H.1 7 _ ((mem_embedCalls_model 10 4 1 1 2 8 "relu" 0
    (some (.bare 7)) none).mpr (Or.inl rfl))
